import Mathlib

/-!
Verification of the rpg-combat-simulator combat engine.

Shallow embedding conventions:
* Python strings are lists of character code points (`Str := List Nat`);
  `s2c` converts a Lean string literal to this representation.
* Python `int` values are `Int`; floor division `//` is `Int.fdiv`.
* Randomness is explicit: every d20 or damage-die draw is supplied either as
  an explicit argument (rules level) or drawn from an indexed stream `Rng`
  (simulator level), mirroring the single shared pseudo-random stream.
* Fallible Python code (raising `ValueError`, `KeyError`, dice-syntax errors)
  is embedded as `Option`/`Except`.
-/

namespace RPG

/-- A Python string, represented as the list of its character code points. -/
abbrev Str := List Nat

/-- Convert a Lean string literal into the code-point representation. -/
def s2c (s : String) : Str := s.toList.map Char.toNat

/-- Python `str.upper()` on one ASCII character code (the repository only
feeds ASCII coordinates and damage-type names through these helpers). -/
def pyUpperChar (c : Nat) : Nat := if 97 ≤ c ∧ c ≤ 122 then c - 32 else c

/-- Python `str.lower()` on one ASCII character code. -/
def pyLowerChar (c : Nat) : Nat := if 65 ≤ c ∧ c ≤ 90 then c + 32 else c

/-- Python `str.upper()`. -/
def pyUpper (s : Str) : Str := s.map pyUpperChar

/-- Python `str.lower()`. -/
def pyLower (s : Str) : Str := s.map pyLowerChar

/-- ASCII whitespace, as removed by Python `str.strip()`. -/
def isSpaceCode (c : Nat) : Bool :=
  c == 32 || c == 9 || c == 10 || c == 13 || c == 12 || c == 11

/-- Python `str.strip()`. -/
def pyStrip (s : Str) : Str :=
  ((s.dropWhile isSpaceCode).reverse.dropWhile isSpaceCode).reverse

/-- ASCII decimal digit test (Python `str.isdigit` on ASCII input). -/
def isDigitCode (c : Nat) : Bool := decide (48 ≤ c) && decide (c ≤ 57)

/-- Python `str.isdigit()`: nonempty and all digits. -/
def pyIsDigit (s : Str) : Bool := !s.isEmpty && s.all isDigitCode

/-- Numeric value of a digit string. -/
def digitsVal (ds : Str) : Nat := ds.foldl (fun acc d => acc * 10 + (d - 48)) 0

/-- Model of Python `int(s)` on the inputs this repository produces:
optional surrounding whitespace, an optional single sign, then one or more
decimal digits; anything else raises (`none`). -/
def pyInt (s : Str) : Option Int :=
  match pyStrip s with
  | [] => none
  | c :: rest =>
    if c == 43 then
      if !rest.isEmpty && rest.all isDigitCode then some (digitsVal rest) else none
    else if c == 45 then
      if !rest.isEmpty && rest.all isDigitCode then some (-(digitsVal rest : Int)) else none
    else if (c :: rest).all isDigitCode then some (digitsVal (c :: rest)) else none

/-- Decimal digits of a natural number, fuel-based so the kernel can
evaluate it (`fuel ≥ number of digits` always holds for `fuel = n + 1`). -/
def digitsAux : Nat → Nat → Str
  | 0, _ => []
  | fuel + 1, n => if n < 10 then [48 + n] else digitsAux fuel (n / 10) ++ [48 + n % 10]

/-- Decimal representation of a natural number (Python `str(n)` for `n ≥ 0`). -/
def natRepr (n : Nat) : Str := digitsAux (n + 1) n

/-- src/domain/distance.py `parse_coordinate`: one column letter (A-Z,
case-insensitive) then an integer rank 1-99, zero-indexed result.
Malformed input raises `ValueError`, embedded as `none`.  The source checks
`isalpha()` and then membership in A-Z after uppercasing; on ASCII input the
two checks together are equivalent to the A-Z range test used here. -/
def parse_coordinate (coord : Str) : Option (Nat × Nat) :=
  if coord.length < 2 then none
  else
    match coord with
    | [] => none
    | c0 :: rest =>
      let fc := pyUpperChar c0
      if !(decide (65 ≤ fc) && decide (fc ≤ 90)) then none
      else
        match pyInt rest with
        | none => none
        | some rank =>
          if 1 ≤ rank ∧ rank ≤ 99 then some (fc - 65, (rank - 1).toNat) else none

/-- src/domain/distance.py `to_coordinate`: chess notation from zero-indexed
coordinates (`chr(x + ord('A'))` followed by `str(y + 1)`). -/
def to_coordinate (x y : Nat) : Str := (65 + x) :: natRepr (y + 1)

/-- Manhattan distance on parsed coordinates. -/
def manhattanP (a b : Nat × Nat) : Nat :=
  ((a.1 : Int) - b.1).natAbs + ((a.2 : Int) - b.2).natAbs

/-- src/domain/distance.py `manhattan_distance` (raises on malformed input). -/
def manhattan_distance (a b : Str) : Option Nat := do
  let pa ← parse_coordinate a
  let pb ← parse_coordinate b
  pure (manhattanP pa pb)

/-- src/domain/distance.py `distance_in_feet`. -/
def distance_in_feet (a b : Str) : Option Nat :=
  (manhattan_distance a b).map (· * 5)

/-- src/domain/dice.py `AdvantageState`: ternary advantage state. -/
inductive AdvantageState
  | advantage
  | normal
  | disadvantage
  deriving DecidableEq

/-- src/domain/dice.py `resolve_advantage`: any advantage source plus any
disadvantage source cancels to normal. -/
def resolve_advantage (advantage_sources disadvantage_sources : List Str) :
    AdvantageState :=
  if advantage_sources.length > 0 ∧ disadvantage_sources.length > 0 then
    .normal
  else if advantage_sources.length > 0 then .advantage
  else if disadvantage_sources.length > 0 then .disadvantage
  else .normal

/-- C7: presence of any advantage source and any disadvantage source yields
NORMAL regardless of counts; only-advantage yields ADVANTAGE, only-disadvantage
yields DISADVANTAGE, and neither yields NORMAL. -/
theorem C7_resolve_advantage_cancellation
    (adv dis : List Str) :
    (adv ≠ [] → dis ≠ [] → resolve_advantage adv dis = .normal) ∧
    (adv ≠ [] → dis = [] → resolve_advantage adv dis = .advantage) ∧
    (adv = [] → dis ≠ [] → resolve_advantage adv dis = .disadvantage) ∧
    (adv = [] → dis = [] → resolve_advantage adv dis = .normal) := by
  unfold resolve_advantage
  refine ⟨?_, ?_, ?_, ?_⟩ <;> intro h1 h2 <;>
    simp_all [List.length_pos, List.length_eq_zero]

/-- C7 witness: three advantage sources and one disadvantage source cancel to
NORMAL; one advantage source alone gives ADVANTAGE. -/
theorem C7_resolve_advantage_cancellation_witness :
    resolve_advantage [s2c "flanking", s2c "pack tactics", s2c "guiding bolt"]
        [s2c "prone"] = .normal ∧
    resolve_advantage [s2c "flanking"] [] = .advantage ∧
    resolve_advantage [] [s2c "prone"] = .disadvantage ∧
    resolve_advantage [] [] = .normal :=
  ⟨(C7_resolve_advantage_cancellation _ _).1 (by simp) (by simp),
   (C7_resolve_advantage_cancellation _ _).2.1 (by simp) rfl,
   (C7_resolve_advantage_cancellation _ _).2.2.1 rfl (by simp),
   (C7_resolve_advantage_cancellation _ _).2.2.2 rfl rfl⟩

theorem natRepr_ne_nil (n : Nat) : natRepr n ≠ [] := by
  unfold natRepr digitsAux
  split <;> simp

theorem pyInt_natRepr : ∀ n, n < 100 → pyInt (natRepr n) = some (n : Int) := by
  decide

theorem parse_to_coordinate_canonical (x n : Nat) (hx : x < 26) (h1 : 1 ≤ n)
    (h99 : n ≤ 99) :
    parse_coordinate (to_coordinate x (n - 1)) = some (x, n - 1) := by
  have hrepr : natRepr (n - 1 + 1) = natRepr n := by rw [Nat.sub_add_cancel h1]
  have hne : natRepr n ≠ [] := natRepr_ne_nil n
  have hint : pyInt (natRepr n) = some (n : Int) := pyInt_natRepr n (by omega)
  have hlen : ¬(((65 + x) :: natRepr n).length < 2) := by
    rcases List.exists_cons_of_ne_nil hne with ⟨d, ds, hds⟩
    simp [hds, List.length_cons]
  have hupper : pyUpperChar (65 + x) = 65 + x := by
    unfold pyUpperChar
    rw [if_neg]
    omega
  have hrange : (decide (65 ≤ 65 + x) && decide (65 + x ≤ 90)) = true := by
    simp only [Bool.and_eq_true, decide_eq_true_eq]
    omega
  unfold to_coordinate
  rw [hrepr]
  unfold parse_coordinate
  rw [if_neg hlen]
  simp only [hupper, hrange, Bool.not_true, Bool.false_eq_true, if_false, hint]
  rw [if_pos (by constructor <;> omega)]
  have hx' : 65 + x - 65 = x := by omega
  have hn' : ((n : Int) - 1).toNat = n - 1 := by omega
  rw [hx', hn']

/-- C6 counterexample: the well-formed lowercase coordinate "a1" parses to
(0, 0) but re-prints as "A1", so print-after-parse is not the identity on
lowercase input. -/
theorem C6_counterexample_lowercase :
    (parse_coordinate (s2c "a1")).map (fun p => to_coordinate p.1 p.2) =
      some (s2c "A1") ∧ s2c "A1" ≠ s2c "a1" := by
  decide

/-- C6 (amended): for every coordinate written with an UPPERCASE column
letter A-Z and a rank 1-99 in canonical decimal form, parsing and re-printing
is the identity; lowercase columns are uppercased by the round trip. -/
theorem C6_roundtrip_uppercase (c : Str) (x n : Nat) (hx : x < 26)
    (h1 : 1 ≤ n) (h99 : n ≤ 99) (hc : c = to_coordinate x (n - 1)) :
    (parse_coordinate c).map (fun p => to_coordinate p.1 p.2) = some c := by
  subst hc
  rw [parse_to_coordinate_canonical x n hx h1 h99]
  rfl

/-- C6 witness: "C4" round-trips to itself. -/
theorem C6_roundtrip_uppercase_witness :
    (parse_coordinate (s2c "C4")).map (fun p => to_coordinate p.1 p.2) =
      some (s2c "C4") :=
  C6_roundtrip_uppercase (s2c "C4") 2 4 (by decide) (by decide) (by decide)
    (by decide)

/-- src/domain/creature.py `AbilityScores` (six abilities, default 10).
The INT score is stored in the field `int_`, exactly as in the source. -/
structure AbilityScores where
  str : Int := 10
  dex : Int := 10
  con : Int := 10
  int_ : Int := 10
  wis : Int := 10
  cha : Int := 10
  deriving DecidableEq

/-- src/domain/creature.py `AbilityScores.modifier`: `(score - 10) // 2`
(Python floor division). -/
def AbilityScores.modifier (score : Int) : Int := (score - 10).fdiv 2

/-- src/domain/creature.py `AbilityScores.get_modifier`:
`getattr(self, ability, 10)` over the six stored field names; any other
ability string (including "int", since the field is named `int_`) falls back
to a score of 10. -/
def AbilityScores.get_modifier (sc : AbilityScores) (ability : Str) : Int :=
  let score :=
    if ability = s2c "str" then sc.str
    else if ability = s2c "dex" then sc.dex
    else if ability = s2c "con" then sc.con
    else if ability = s2c "int_" then sc.int_
    else if ability = s2c "wis" then sc.wis
    else if ability = s2c "cha" then sc.cha
    else 10
  AbilityScores.modifier score

/-- src/domain/creature.py `DeathSaves`. -/
structure DeathSaves where
  successes : Int := 0
  failures : Int := 0
  stable : Bool := false
  deriving DecidableEq

/-- src/domain/creature.py `DamageRoll`. -/
structure DamageRoll where
  dice : Str
  damage_type : Str
  deriving DecidableEq

/-- src/domain/creature.py `Attack` (melee reach or ranged range, in feet). -/
structure Attack where
  name : Str
  attack_bonus : Int
  damage : DamageRoll
  reach : Option Int := none
  range : Option Int := none
  deriving DecidableEq

/-- src/domain/creature.py `Action` (attack vehicle, AoE spell, or no-op). -/
structure Action where
  name : Str
  attacks : List Attack := []
  area_shape : Option Str := none
  radius_squares : Option Int := none
  save_ability : Option Str := none
  save_dc : Option Int := none
  damage : Option DamageRoll := none
  deriving DecidableEq

/-- src/domain/creature.py `Action.is_aoe`: area shape and radius present. -/
def Action.is_aoe (a : Action) : Bool :=
  a.area_shape.isSome && a.radius_squares.isSome

/-- src/domain/creature.py `Creature`.  The narrative fields (bio, race,
class, level) and `creature_id` are used only for agent prompting/loading and
are omitted; the creature's key in the state mapping plays the id role. -/
structure Creature where
  name : Str
  ac : Int
  hp_max : Int
  current_hp : Int
  speed : Int := 30
  initiative_bonus : Int := 0
  team : Str
  position : Str
  ability_scores : AbilityScores := {}
  actions : List Action := []
  damage_resistances : List Str := []
  damage_immunities : List Str := []
  damage_vulnerabilities : List Str := []
  death_saves : DeathSaves := {}
  deriving DecidableEq

/-- Result of `make_attack_roll` (src/domain/rules.py `AttackResult`); the
human-readable description string is omitted. -/
structure AttackResult where
  natural_roll : Int
  bonus : Int
  total : Int
  ac : Int
  is_critical : Bool
  is_auto_miss : Bool
  is_hit : Bool
  deriving DecidableEq

/-- Modelled from the spec: the `make_attack_roll` variant that the simulator
invokes with a `cover_bonus` keyword (src/simulation/simulator.py lines 68,
284-286).  The rules.py in the snapshot lacks this parameter (its tests call
the two-argument form), so the cover handling is modelled from the spec: the
cover bonus (2 half, 5 three-quarters) is added to the target's effective AC
before comparison, never to the natural-20/natural-1 override logic.  The d20
result drawn inside via `roll_d20` is passed explicitly as `natural_roll`. -/
def make_attack_roll (natural_roll bonus ac cover_bonus : Int) : AttackResult :=
  let is_critical := natural_roll == 20
  let is_auto_miss := natural_roll == 1
  let is_hit :=
    if is_auto_miss then false
    else if is_critical then true
    else decide (natural_roll + bonus ≥ ac + cover_bonus)
  ⟨natural_roll, bonus, natural_roll + bonus, ac, is_critical, is_auto_miss, is_hit⟩

/-- Cover kinds returned by src/domain/cover.py `get_cover`. -/
inductive CoverKind
  | noCover
  | half
  | threeQuarters
  deriving DecidableEq

/-- src/simulation/simulator.py cover-bonus mapping
(`2 if cover == "half" else 5 if cover == "three-quarters" else 0`). -/
def cover_bonus_of (c : CoverKind) : Int :=
  if c = .half then 2 else if c = .threeQuarters then 5 else 0

/-- Result of `make_saving_throw` (src/domain/rules.py `SavingThrowResult`). -/
structure SavingThrowResult where
  roll : Int
  modifier : Int
  total : Int
  dc : Int
  is_success : Bool
  deriving DecidableEq

/-- Modelled from the spec: the `make_saving_throw` variant the simulator
invokes with a `cover_bonus` keyword (src/simulation/simulator.py line 123),
missing from the snapshot's rules.py.  The spec (4.2, 4.5) describes the
saving throw as the d20 roll plus the ability modifier compared against the
DC, with no auto-hit/auto-miss special-casing and no cover term, so the
keyword is accepted (the call site passes it) but does not enter the
comparison. -/
def make_saving_throw (roll ability_modifier dc _cover_bonus : Int) :
    SavingThrowResult :=
  let total := roll + ability_modifier
  ⟨roll, ability_modifier, total, dc, decide (total ≥ dc)⟩

/-- Split a string into its leading digit run and the rest. -/
def takeDigits (s : Str) : Str × Str :=
  (s.takeWhile isDigitCode, s.dropWhile isDigitCode)

/-- Model of `re.match(r"(\d+)d(\d+)([+-]\d+)?", s)`: anchored at the start
only, so trailing junk is ignored; the optional sign group backtracks to
empty (modifier 0) when no digits follow the sign. -/
def regex_ndm_match (s : Str) : Option (Nat × Nat × Int) :=
  let p1 := takeDigits s
  if p1.1.isEmpty then none
  else
    match p1.2 with
    | [] => none
    | c :: r2 =>
      if c == 100 then
        let p2 := takeDigits r2
        if p2.1.isEmpty then none
        else
          let modifier : Int :=
            match p2.2 with
            | [] => 0
            | sgn :: r4 =>
              let d3 := (takeDigits r4).1
              if (sgn == 43 || sgn == 45) && !d3.isEmpty then
                if sgn == 45 then -(digitsVal d3 : Int) else (digitsVal d3 : Int)
              else 0
          some (digitsVal p1.1, digitsVal p2.1, modifier)
      else none

/-- src/domain/rules.py `parse_dice_expression`: bare digits are flat damage;
otherwise the regex is tried on the stripped string and a failed match falls
back to flat damage 1. -/
def parse_dice_expression (dice_str : Str) : Nat × Nat × Int :=
  if pyIsDigit dice_str then (0, 0, (digitsVal dice_str : Int))
  else
    match regex_ndm_match (pyStrip dice_str) with
    | none => (0, 0, 1)
    | some r => r

/-- Full-string parse of a dice expression as the external `d20` library
accepts the expressions this repository produces: an optional-sign integer
literal, or exactly `NdM`, `NdM+K`, `NdM-K` with nothing following.  Any
other string makes `d20.roll` raise, modelled as `none`. -/
def d20_parse (s : Str) : Option (Nat × Nat × Int) :=
  let t := pyStrip s
  match pyInt t with
  | some k => some (0, 0, k)
  | none =>
    let p1 := takeDigits t
    if p1.1.isEmpty then none
    else
      match p1.2 with
      | [] => none
      | c :: r2 =>
        if c == 100 then
          let p2 := takeDigits r2
          if p2.1.isEmpty then none
          else
            match p2.2 with
            | [] => some (digitsVal p1.1, digitsVal p2.1, 0)
            | sgn :: r4 =>
              let p3 := takeDigits r4
              if (sgn == 43 || sgn == 45) && !p3.1.isEmpty && p3.2.isEmpty then
                some (digitsVal p1.1, digitsVal p2.1,
                  if sgn == 45 then -(digitsVal p3.1 : Int) else (digitsVal p3.1 : Int))
              else none
        else none

/-- Total of `n` dice whose individual results are supplied by `die`. -/
def sum_dice (die : Nat → Nat) (n : Nat) : Nat :=
  (List.range n).foldl (fun a i => a + die i) 0

/-- Model of src/domain/dice.py `roll_damage` (a call into the external `d20`
library): parse the expression, sum the dice results from `die`, add the
modifier; invalid syntax raises (`none`). -/
def roll_damage (die : Nat → Nat) (s : Str) : Option Int :=
  match d20_parse s with
  | none => none
  | some (n, _, k) => some ((sum_dice die n : Int) + k)

/-- The critical-hit dice expression rebuilt by `roll_damage_for_attack`:
doubled dice count, same die size, the flat modifier appended with its
sign (`f"{num*2}d{size}"` plus `"+k"` / `"-k"` / nothing). -/
def crit_dice_expr (p : Nat × Nat × Int) : Str :=
  natRepr (p.1 * 2) ++ [100] ++ natRepr p.2.1 ++
    (if p.2.2 > 0 then [43] ++ natRepr p.2.2.toNat
     else if p.2.2 < 0 then [45] ++ natRepr (-p.2.2).toNat
     else [])

/-- src/domain/rules.py `roll_damage_for_attack`: on a critical the dice are
doubled (rebuilt as a fresh expression string) and the modifier is not; flat
expressions return the modifier unchanged.  The non-critical branch passes
the raw string straight to `roll_damage`. -/
def roll_damage_for_attack (die : Nat → Nat) (damage_dice_str : Str)
    (is_critical : Bool) : Option Int :=
  if is_critical then
    let p := parse_dice_expression damage_dice_str
    if p.1 > 0 ∧ p.2.1 > 0 then roll_damage die (crit_dice_expr p)
    else some p.2.2
  else roll_damage die damage_dice_str

/-- Damage-modifier kinds returned by `apply_damage_modifiers`. -/
inductive DamageModifier
  | immunity
  | resistance
  | vulnerability
  deriving DecidableEq

/-- src/domain/rules.py `apply_damage_modifiers`: immunity zeroes
(short-circuits), resistance floor-halves, vulnerability doubles, in that
strict order; the damage type must be truthy (nonempty) and the comparison is
case-insensitive. -/
def apply_damage_modifiers (damage : Int) (damage_type : Str)
    (creature : Creature) : Int × Option DamageModifier :=
  if damage_type ≠ [] ∧
      (creature.damage_immunities.map pyLower).contains (pyLower damage_type) then
    (0, some .immunity)
  else if damage_type ≠ [] ∧
      (creature.damage_resistances.map pyLower).contains (pyLower damage_type) then
    (damage.fdiv 2, some .resistance)
  else if damage_type ≠ [] ∧
      (creature.damage_vulnerabilities.map pyLower).contains (pyLower damage_type) then
    (damage * 2, some .vulnerability)
  else (damage, none)

/-- src/domain/rules.py `make_death_save` with the d20 result passed
explicitly: natural 20 revives to 1 HP and resets counters; natural 1 adds
two failures; 10+ adds a success (three successes reset counters and set
stable); otherwise one failure is added.  In the two failure branches the
source computes `is_stable = failures < 3` and stores it. -/
def make_death_save (roll : Int) (creature : Creature) : Creature :=
  let successes := creature.death_saves.successes
  let failures := creature.death_saves.failures
  if roll == 20 then
    { creature with current_hp := 1, death_saves := ⟨0, 0, true⟩ }
  else if roll == 1 then
    let failures := failures + 2
    { creature with death_saves := ⟨successes, failures, decide (failures < 3)⟩ }
  else if roll ≥ 10 then
    let successes := successes + 1
    if successes ≥ 3 then
      { creature with death_saves := ⟨0, 0, true⟩ }
    else
      { creature with death_saves := ⟨successes, failures, false⟩ }
  else
    let failures := failures + 1
    { creature with death_saves := ⟨successes, failures, decide (failures < 3)⟩ }

/-- C1: as invoked by the simulator, the attack roll adds the cover bonus
(2 for half cover, 5 for three-quarters) to the target's AC only in the
comparison branch: a natural 20 always hits critically and a natural 1 always
misses, regardless of cover; any other roll hits iff roll + bonus reaches
AC + cover bonus. -/
theorem C1_cover_bonus_in_comparison_only
    (roll bonus ac : Int) (cover : CoverKind)
    (h1 : 1 ≤ roll) (h20 : roll ≤ 20) :
    (roll = 20 →
      (make_attack_roll roll bonus ac (cover_bonus_of cover)).is_hit = true ∧
      (make_attack_roll roll bonus ac (cover_bonus_of cover)).is_critical = true) ∧
    (roll = 1 →
      (make_attack_roll roll bonus ac (cover_bonus_of cover)).is_hit = false) ∧
    (roll ≠ 20 → roll ≠ 1 →
      ((make_attack_roll roll bonus ac (cover_bonus_of cover)).is_hit = true ↔
        roll + bonus ≥ ac + cover_bonus_of cover)) ∧
    cover_bonus_of .half = 2 ∧ cover_bonus_of .threeQuarters = 5 := by
  unfold make_attack_roll
  refine ⟨?_, ?_, ?_, rfl, rfl⟩
  · intro h
    subst h
    simp
  · intro h
    subst h
    simp
  · intro h20' h1'
    have e20 : (roll == 20) = false := by simp [h20']
    have e1 : (roll == 1) = false := by simp [h1']
    simp [e20, e1]

/-- C1 witness: with half cover (bonus 2), a natural 14 with +3 against AC 15
hits (14+3 ≥ 15+2); a natural 20 hits critically and a natural 1 misses. -/
theorem C1_cover_bonus_in_comparison_only_witness :
    (make_attack_roll 14 3 15 (cover_bonus_of .half)).is_hit = true ∧
    (make_attack_roll 20 (-10) 15 (cover_bonus_of .threeQuarters)).is_hit = true ∧
    (make_attack_roll 1 30 15 (cover_bonus_of .half)).is_hit = false :=
  ⟨((C1_cover_bonus_in_comparison_only 14 3 15 .half (by norm_num)
      (by norm_num)).2.2.1 (by norm_num) (by norm_num)).mpr
      (by norm_num [cover_bonus_of]),
   ((C1_cover_bonus_in_comparison_only 20 (-10) 15 .threeQuarters (by norm_num)
      (by norm_num)).1 rfl).1,
   (C1_cover_bonus_in_comparison_only 1 30 15 .half (by norm_num)
      (by norm_num)).2.1 rfl⟩

/-- A creature at 0 HP making death saves, as in the repository's tests. -/
def dyingCreature : Creature :=
  { name := s2c "Test", ac := 15, hp_max := 20, current_hp := 0,
    team := s2c "enemy", position := s2c "A1" }

/-- C4: evaluating the code at the failing input.  A death-save roll of 5
(a plain failure) on a creature with no prior successes or failures leaves
`death_saves = (0, 1, stable := true)`: the failure is recorded and carried
forward, but the source sets `stable = (failures < 3) = true`, marking the
creature stable after a single failed death save (the claim and the
function's own docstring require stable only on 3 successes or a natural 20).
A natural 1 likewise yields `(0, 2, stable := true)`. -/
theorem C4_failure_branch_marks_stable :
    (make_death_save 5 dyingCreature).death_saves =
      ⟨0, 1, true⟩ ∧
    (make_death_save 1 dyingCreature).death_saves =
      ⟨0, 2, true⟩ ∧
    (make_death_save 5 dyingCreature).current_hp = 0 := by
  decide

/-- C5 counterexample: "2d6x" is neither a bare integer nor of the form
NdM/NdM+K/NdM-K, yet `parse_dice_expression` maps it to (2, 6, 0) rather
than (0, 0, 1) (the regex is anchored only at the start), and on a critical
the damage rolled is the doubled-dice total (4 with all dice showing 1), not
flat damage 1.  On the letters-only string "garbage" the non-critical branch
passes the string straight to the external d20 roller, which raises. -/
theorem C5_counterexample_prefix_and_raise :
    parse_dice_expression (s2c "2d6x") = (2, 6, 0) ∧
    roll_damage_for_attack (fun _ => 1) (s2c "2d6x") true = some 4 ∧
    roll_damage_for_attack (fun _ => 1) (s2c "garbage") false = none := by
  decide

/-- C5 (amended): if a damage-dice string is not a bare non-negative integer
and its stripped form does not even begin with an NdM/NdM+K/NdM-K prefix,
then `parse_dice_expression` falls back to (0, 0, 1) and the critical branch
of `roll_damage_for_attack` returns flat damage 1 without raising; the
non-critical branch has no fallback: it hands the raw string to the external
d20 roller (which raises on invalid syntax). -/
theorem C5_fallback_flat_one (die : Nat → Nat) (s : Str)
    (hdig : pyIsDigit s = false)
    (hmatch : regex_ndm_match (pyStrip s) = none) :
    parse_dice_expression s = (0, 0, 1) ∧
    roll_damage_for_attack die s true = some 1 ∧
    roll_damage_for_attack die s false = roll_damage die s := by
  have hp : parse_dice_expression s = (0, 0, 1) := by
    unfold parse_dice_expression
    rw [hdig, hmatch]
    simp
  refine ⟨hp, ?_, rfl⟩
  unfold roll_damage_for_attack
  rw [hp]
  norm_num

/-- C5 witness: the string "garbage" satisfies both hypotheses, parses to
(0, 0, 1) and yields flat critical damage 1. -/
theorem C5_fallback_flat_one_witness :
    parse_dice_expression (s2c "garbage") = (0, 0, 1) ∧
    roll_damage_for_attack (fun _ => 1) (s2c "garbage") true = some 1 ∧
    roll_damage_for_attack (fun _ => 1) (s2c "garbage") false =
      roll_damage (fun _ => 1) (s2c "garbage") :=
  C5_fallback_flat_one (fun _ => 1) (s2c "garbage") (by decide) (by decide)

/-- The validation errors raised by src/analysis/statistics.py
`calculate_win_rate_ci`, in source order. -/
inductive CIError
  | totalNegative
  | winsNegative
  | winsGreaterThanTotal
  | badConfidence
  deriving DecidableEq

/-- src/analysis/statistics.py `calculate_win_rate_ci`.  The Wilson-score
interval itself is computed by scipy (`binomtest(...).proportion_ci`), an
external floating-point routine abstracted here as the `wilson` parameter;
everything else (validation order, the zero-trials edge case, the point
estimate) is embedded from the source. -/
def calculate_win_rate_ci (wilson : Int → Int → ℚ → ℚ × ℚ)
    (wins total : Int) (confidence_level : ℚ) : Except CIError (ℚ × ℚ × ℚ) :=
  if total < 0 then .error .totalNegative
  else if wins < 0 then .error .winsNegative
  else if wins > total then .error .winsGreaterThanTotal
  else if ¬(0 < confidence_level ∧ confidence_level < 1) then .error .badConfidence
  else if total == 0 then .ok (0, 1, 1 / 2)
  else
    let point_estimate : ℚ := (wins : ℚ) / (total : ℚ)
    let ci := wilson wins total confidence_level
    .ok (ci.1, ci.2, point_estimate)

/-- Whether an `Except` result is an error (a raised Python exception). -/
def isErr {ε α : Type} : Except ε α → Bool
  | .error _ => true
  | .ok _ => false

/-- src/analysis/statistics.py `progressive_sampling_stopping_criteria`:
stop once the CI width is at most `2 * target_precision`; zero trials never
stop.  A validation error inside the CI call propagates (`none`). -/
def progressive_sampling_stopping_criteria (wilson : Int → Int → ℚ → ℚ × ℚ)
    (wins total : Int) (target_precision confidence_level : ℚ) : Option Bool :=
  if total == 0 then some false
  else
    match calculate_win_rate_ci wilson wins total confidence_level with
    | .error _ => none
    | .ok (lower, upper, _) =>
      some (decide (upper - lower ≤ 2 * target_precision))

/-- C9: with zero wins out of zero trials and any confidence level strictly
between 0 and 1, the CI is the maximally uncertain (0, 1) with point estimate
1/2, with no division; and the call raises exactly when wins or total is
negative, wins exceeds total, or the confidence level is outside (0, 1). -/
theorem C9_zero_trials_and_validation
    (wilson : Int → Int → ℚ → ℚ × ℚ) (wins total : Int) (conf : ℚ) :
    (0 < conf → conf < 1 →
      calculate_win_rate_ci wilson 0 0 conf = .ok (0, 1, 1 / 2)) ∧
    (isErr (calculate_win_rate_ci wilson wins total conf) = true ↔
      total < 0 ∨ wins < 0 ∨ wins > total ∨ ¬(0 < conf ∧ conf < 1)) := by
  constructor
  · intro h0 h1
    unfold calculate_win_rate_ci
    rw [if_neg (by norm_num), if_neg (by norm_num), if_neg (by norm_num),
      if_neg (not_not_intro ⟨h0, h1⟩), if_pos (by norm_num)]
  · unfold calculate_win_rate_ci
    split_ifs with h1 h2 h3 h4 h5 <;> simp_all [isErr] <;> omega

/-- C9 witness: zero-for-zero with 95% confidence yields (0, 1, 1/2), and a
negative win count is rejected. -/
theorem C9_zero_trials_and_validation_witness :
    calculate_win_rate_ci (fun _ _ _ => (0, 0)) 0 0 (95 / 100) =
      .ok (0, 1, 1 / 2) ∧
    (isErr (calculate_win_rate_ci (fun _ _ _ => (0, 0)) (-1) 5 (95 / 100)) =
      true ↔ (5 : Int) < 0 ∨ (-1 : Int) < 0 ∨ (-1 : Int) > 5 ∨
        ¬(0 < (95 / 100 : ℚ) ∧ (95 / 100 : ℚ) < 1)) :=
  ⟨(C9_zero_trials_and_validation (fun _ _ _ => (0, 0)) 0 0 (95 / 100)).1
      (by norm_num) (by norm_num),
   (C9_zero_trials_and_validation (fun _ _ _ => (0, 0)) (-1) 5 (95 / 100)).2⟩

/-- src/simulation/monte_carlo.py `MonteCarloSimulator` constructor
parameters. -/
structure MonteCarloConfig where
  min_runs : Nat
  max_runs : Nat
  target_precision : ℚ
  check_interval : Nat
  confidence_level : ℚ
  deriving DecidableEq

/-- The constructor validation of `MonteCarloSimulator.__init__` (a
`ValueError` is raised unless all of these hold). -/
def MonteCarloConfig.valid (cfg : MonteCarloConfig) : Prop :=
  0 < cfg.min_runs ∧ 0 < cfg.max_runs ∧ cfg.min_runs ≤ cfg.max_runs ∧
    0 < cfg.target_precision ∧ cfg.target_precision < 1 ∧
    0 < cfg.check_interval ∧
    0 < cfg.confidence_level ∧ cfg.confidence_level < 1

instance (cfg : MonteCarloConfig) : Decidable cfg.valid := by
  unfold MonteCarloConfig.valid
  infer_instance

/-- Number of party wins among trials `start, …, start + count - 1`; the
individual combat trial (`run_combat` plus the `get_winner == "party"` test)
is abstracted as the outcome oracle `winOracle`. -/
def countWins (winOracle : Nat → Bool) (start count : Nat) : Nat :=
  ((List.range count).filter fun i => winOracle (start + i)).length

/-- Phase 2 of `MonteCarloSimulator.run_simulation`: while the budget is not
exhausted, check the stopping criterion and otherwise run
`min(check_interval, max_runs - total)` more trials.  The fuel argument only
bounds the recursion; `max_runs` fuel is enough because every iteration adds
at least one trial (valid configs have `check_interval ≥ 1`). -/
def runSimulationLoop (wilson : Int → Int → ℚ → ℚ × ℚ)
    (cfg : MonteCarloConfig) (winOracle : Nat → Bool) :
    Nat → Nat → Nat → Option (Nat × Nat)
  | 0, wins, total => some (wins, total)
  | fuel + 1, wins, total =>
    if total < cfg.max_runs then
      match progressive_sampling_stopping_criteria wilson wins total
          cfg.target_precision cfg.confidence_level with
      | none => none
      | some true => some (wins, total)
      | some false =>
        let runs_to_do := min cfg.check_interval (cfg.max_runs - total)
        runSimulationLoop wilson cfg winOracle fuel
          (wins + countWins winOracle total runs_to_do) (total + runs_to_do)
    else some (wins, total)

/-- src/simulation/monte_carlo.py `MonteCarloSimulator.run_simulation`,
reduced to its sampling control flow: run `min_runs` trials, then the
progressive phase-2 loop; returns `(wins, total_runs)` (the other fields of
`SimulationResults` are derived values and collected logs). -/
def run_simulation (wilson : Int → Int → ℚ → ℚ × ℚ)
    (cfg : MonteCarloConfig) (winOracle : Nat → Bool) : Option (Nat × Nat) :=
  runSimulationLoop wilson cfg winOracle cfg.max_runs
    (countWins winOracle 0 cfg.min_runs) cfg.min_runs

/-- C8 helper: a win count over `count` trials never exceeds `count`. -/
theorem countWins_le (winOracle : Nat → Bool) (start count : Nat) :
    countWins winOracle start count ≤ count := by
  unfold countWins
  calc ((List.range count).filter fun i => winOracle (start + i)).length
      ≤ (List.range count).length := List.length_filter_le _ _
    _ = count := List.length_range count

/-- C8 helper: with a positive trial count, wins ≤ total and a valid
confidence level, the stopping criterion reduces to the Wilson-width test. -/
theorem criterion_eval (wilson : Int → Int → ℚ → ℚ × ℚ) (wins total : Nat)
    (prec conf : ℚ) (ht : 0 < total) (hwt : wins ≤ total)
    (hc : 0 < conf ∧ conf < 1) :
    progressive_sampling_stopping_criteria wilson wins total prec conf =
      some (decide ((wilson wins total conf).2 - (wilson wins total conf).1 ≤
        2 * prec)) := by
  unfold progressive_sampling_stopping_criteria calculate_win_rate_ci
  have h1 : ¬(((total : Int) == 0) = true) := by simp; omega
  rw [if_neg h1, if_neg (by omega : ¬((total : Int) < 0)),
    if_neg (by omega : ¬((wins : Int) < 0)),
    if_neg (by omega : ¬((wins : Int) > (total : Int))),
    if_neg (not_not_intro hc), if_neg h1]

/-- C8 helper: the phase-2 loop never pushes the trial count past
`max_runs`. -/
theorem runSimulationLoop_total_le (wilson : Int → Int → ℚ → ℚ × ℚ)
    (cfg : MonteCarloConfig) (winOracle : Nat → Bool) :
    ∀ fuel wins total, total ≤ cfg.max_runs →
      ∀ w t, runSimulationLoop wilson cfg winOracle fuel wins total =
        some (w, t) → t ≤ cfg.max_runs := by
  intro fuel
  induction fuel with
  | zero =>
    intro wins total h w t heq
    simp only [runSimulationLoop, Option.some.injEq, Prod.mk.injEq] at heq
    omega
  | succ f ih =>
    intro wins total h w t heq
    simp only [runSimulationLoop] at heq
    by_cases hlt : total < cfg.max_runs
    · rw [if_pos hlt] at heq
      cases hcrit : progressive_sampling_stopping_criteria wilson wins total
          cfg.target_precision cfg.confidence_level with
      | none => rw [hcrit] at heq; exact absurd heq (by simp)
      | some b =>
        rw [hcrit] at heq
        cases b with
        | true =>
          simp only [Option.some.injEq, Prod.mk.injEq] at heq
          omega
        | false =>
          exact ih _ _ (by omega) w t heq
    · rw [if_neg hlt] at heq
      simp only [Option.some.injEq, Prod.mk.injEq] at heq
      omega

/-- C8: with a valid configuration, if after the first `min_runs` trials the
Wilson confidence interval on the win proportion already has width at most
`2 * target_precision`, the progressive loop stops immediately: no further
trial runs and the returned totals are exactly the phase-1 wins and
`min_runs`.  And for any oracle whatsoever the returned `total_runs` never
exceeds `max_runs`. -/
theorem C8_progressive_sampling_stops_at_min
    (wilson : Int → Int → ℚ → ℚ × ℚ) (cfg : MonteCarloConfig)
    (winOracle : Nat → Bool) (hvalid : cfg.valid)
    (hw : (wilson (countWins winOracle 0 cfg.min_runs) cfg.min_runs
        cfg.confidence_level).2 -
      (wilson (countWins winOracle 0 cfg.min_runs) cfg.min_runs
        cfg.confidence_level).1 ≤ 2 * cfg.target_precision) :
    run_simulation wilson cfg winOracle =
      some (countWins winOracle 0 cfg.min_runs, cfg.min_runs) ∧
    (∀ (wilson2 : Int → Int → ℚ → ℚ × ℚ) (oracle2 : Nat → Bool) (w t : Nat),
      run_simulation wilson2 cfg oracle2 = some (w, t) → t ≤ cfg.max_runs) := by
  obtain ⟨hmin, hmax, hmm, hp0, hp1, hci, hc0, hc1⟩ := hvalid
  constructor
  · unfold run_simulation
    obtain ⟨f, hf⟩ : ∃ f, cfg.max_runs = f + 1 := ⟨cfg.max_runs - 1, by omega⟩
    rw [hf]
    simp only [runSimulationLoop]
    by_cases hlt : cfg.min_runs < cfg.max_runs
    · rw [if_pos (by omega)]
      rw [criterion_eval wilson _ _ _ _ hmin
        (countWins_le winOracle 0 cfg.min_runs) ⟨hc0, hc1⟩]
      rw [decide_eq_true hw]
    · rw [if_neg (by omega)]
  · intro wilson2 oracle2 w t heq
    exact runSimulationLoop_total_le wilson2 cfg oracle2 _ _ _ hmm w t heq

/-- C8 witness: min 2, max 5 runs, target precision 1/100; a Wilson oracle of
constant width 0 stops the simulation at exactly the 2 minimum runs. -/
theorem C8_progressive_sampling_stops_at_min_witness :
    run_simulation (fun _ _ _ => (0, 0))
      ⟨2, 5, 1 / 100, 2, 95 / 100⟩ (fun _ => true) = some (2, 2) := by
  exact (C8_progressive_sampling_stops_at_min (fun _ _ _ => (0, 0))
    ⟨2, 5, 1 / 100, 2, 95 / 100⟩ (fun _ => true)
    (by norm_num [MonteCarloConfig.valid]) (by norm_num)).1

/-- The two cover-zone strengths of src/domain/terrain.py
(`Literal["half", "three-quarters"]`). -/
inductive ZoneType
  | half
  | threeQuarters
  deriving DecidableEq

/-- src/domain/terrain.py `CoverZone`: a zone given either by explicit cells
or by an axis-aligned rectangle.  The field `type` of the source is named
`ztype` (type is a keyword-like name in Lean). -/
structure CoverZone where
  ztype : ZoneType
  cells : Option (List Str) := none
  from_pos : Option Str := none
  to_pos : Option Str := none
  deriving DecidableEq

/-- src/domain/terrain.py `CoverZone.cell_set`: explicit cells are
normalised by `c.upper().strip()`; otherwise a truthy from/to pair spans the
rectangle (parsing may raise); otherwise the empty set.  The Python set is
modelled as a list (possible duplicates do not change any lookup). -/
def CoverZone.cell_set (z : CoverZone) : Option (List Str) :=
  match z.cells with
  | some (c :: cs) => some ((c :: cs).map fun cell => pyStrip (pyUpper cell))
  | _ =>
    match z.from_pos, z.to_pos with
    | some f, some t =>
      if f ≠ [] ∧ t ≠ [] then
        match parse_coordinate f, parse_coordinate t with
        | some pf, some pt =>
          let x_lo := min pf.1 pt.1
          let x_hi := max pf.1 pt.1
          let y_lo := min pf.2 pt.2
          let y_hi := max pf.2 pt.2
          some (((List.range (x_hi + 1 - x_lo)).map (x_lo + ·)).flatMap
            fun x => ((List.range (y_hi + 1 - y_lo)).map (y_lo + ·)).map
              fun y => to_coordinate x y)
        | _, _ => none
      else some []
    | _, _ => some []

/-- src/domain/terrain.py `Terrain` (the description string is presentation
only and omitted). -/
structure Terrain where
  name : Str
  cover_zones : List CoverZone := []
  deriving DecidableEq

/-- Python dict assignment `result[cell] = t`: overwrite in place if the key
exists, else append. -/
def dictInsert (m : List (Str × ZoneType)) (cell : Str) (t : ZoneType) :
    List (Str × ZoneType) :=
  if (m.lookup cell).isSome then
    m.map fun p => if p.1 = cell then (cell, t) else p
  else m ++ [(cell, t)]

/-- One zone's contribution to `all_cover_cells`: assign when the cell is new
or the zone is three-quarters (three-quarters wins over half). -/
def insertZoneCells (zt : ZoneType) (cells : List Str)
    (m : List (Str × ZoneType)) : List (Str × ZoneType) :=
  cells.foldl
    (fun acc cell =>
      if (acc.lookup cell).isNone ∨ zt = .threeQuarters then
        dictInsert acc cell zt
      else acc)
    m

/-- src/domain/terrain.py `Terrain.all_cover_cells`: map from cell to the
strongest cover type there; `none` when a malformed zone raises. -/
def Terrain.all_cover_cells (t : Terrain) :
    Option (List (Str × ZoneType)) :=
  t.cover_zones.foldl
    (fun acc z => acc.bind fun m => (z.cell_set).map fun cs =>
      insertZoneCells z.ztype cs m)
    (some [])

/-- One greedy step of the Manhattan path (column first, then row), from
src/domain/cover.py `_cells_on_path` / src/domain/distance.py
`move_toward`. -/
def stepToward (c b : Nat × Nat) : Nat × Nat :=
  if c.1 < b.1 then (c.1 + 1, c.2)
  else if c.1 > b.1 then (c.1 - 1, c.2)
  else if c.2 < b.2 then (c.1, c.2 + 1)
  else if c.2 > b.2 then (c.1, c.2 - 1)
  else c

/-- The while-loop of `_cells_on_path`, fuel-recursive: step toward the
target, collecting every cell reached strictly before the target.  Each step
decreases the Manhattan distance by one, so fuel equal to the distance covers
the whole loop. -/
def cellsOnPathAux : Nat → Nat × Nat → Nat × Nat → List (Nat × Nat)
  | 0, _, _ => []
  | fuel + 1, c, b =>
    if c = b then []
    else
      let c2 := stepToward c b
      if c2 = b then [] else c2 :: cellsOnPathAux fuel c2 b

/-- src/domain/cover.py `_cells_on_path`: the cells strictly between the two
endpoints along the column-then-row Manhattan path (raises on malformed
coordinates). -/
def cells_on_path (from_pos to_pos : Str) : Option (List Str) := do
  let a ← parse_coordinate from_pos
  let b ← parse_coordinate to_pos
  pure ((cellsOnPathAux (manhattanP a b) a b).map fun p => to_coordinate p.1 p.2)

/-- The path-scanning loop of `get_cover`: three-quarters returns
immediately; half is remembered; otherwise keep scanning. -/
def pathCover : List Str → List (Str × ZoneType) → Bool → CoverKind
  | [], _, foundHalf => if foundHalf then .half else .noCover
  | cell :: rest, m, foundHalf =>
    match m.lookup (pyUpper cell) with
    | some .threeQuarters => .threeQuarters
    | some .half => pathCover rest m true
    | none => pathCover rest m foundHalf

/-- src/domain/cover.py `get_cover`: same cell or no terrain/zones/cells
means no cover; otherwise the strongest cover type touched by any cell of
the strict-interior Manhattan path. -/
def get_cover (attacker_pos target_pos : Str) (terrain : Option Terrain) :
    Option CoverKind :=
  if pyUpper (pyStrip attacker_pos) = pyUpper (pyStrip target_pos) then
    some .noCover
  else
    match terrain with
    | none => some .noCover
    | some t =>
      if t.cover_zones.isEmpty then some .noCover
      else
        match t.all_cover_cells with
        | none => none
        | some cover_cells =>
          if cover_cells.isEmpty then some .noCover
          else
            match cells_on_path (pyUpper (pyStrip attacker_pos))
                (pyUpper (pyStrip target_pos)) with
            | none => none
            | some path => some (pathCover path cover_cells false)

/-- C10 helper: at Manhattan distance one the strict-interior path is
empty (the single step already reaches the target). -/
theorem cellsOnPathAux_adjacent (p q : Nat × Nat) (hd : manhattanP p q = 1) :
    cellsOnPathAux (manhattanP p q) p q = [] := by
  rw [hd]
  obtain ⟨px, py⟩ := p
  obtain ⟨qx, qy⟩ := q
  unfold manhattanP at hd
  simp only at hd
  have hne : (px, py) ≠ (qx, qy) := by
    intro h
    rw [Prod.mk.injEq] at h
    omega
  have hstep : stepToward (px, py) (qx, qy) = (qx, qy) := by
    unfold stepToward
    simp only
    split_ifs with h1 h2 h3 h4 <;> rw [Prod.mk.injEq] <;> omega
  unfold cellsOnPathAux
  rw [if_neg hne, hstep, if_pos rfl]

/-- C10: for any two positions at Manhattan distance exactly one, the cover
is "none" for every terrain whose zones are well formed — including terrains
whose cover zones contain the attacker's or target's own cell — because the
path strictly between the endpoints is empty. -/
theorem C10_adjacent_cells_no_cover (s1 s2 : Str) (p1 p2 : Nat × Nat)
    (t : Option Terrain)
    (h1 : parse_coordinate (pyUpper (pyStrip s1)) = some p1)
    (h2 : parse_coordinate (pyUpper (pyStrip s2)) = some p2)
    (hd : manhattanP p1 p2 = 1)
    (ht : ∀ tr, t = some tr → tr.all_cover_cells.isSome) :
    get_cover s1 s2 t = some .noCover := by
  have hne : pyUpper (pyStrip s1) ≠ pyUpper (pyStrip s2) := by
    intro he
    rw [he, h2] at h1
    obtain ⟨px, py⟩ := p1
    obtain ⟨qx, qy⟩ := p2
    simp only [Option.some.injEq, Prod.mk.injEq] at h1
    unfold manhattanP at hd
    simp only at hd
    omega
  have hpath : cells_on_path (pyUpper (pyStrip s1)) (pyUpper (pyStrip s2)) =
      some [] := by
    unfold cells_on_path
    rw [h1, h2]
    simp [cellsOnPathAux_adjacent p1 p2 hd]
  unfold get_cover
  rw [if_neg hne]
  match t, ht with
  | none, _ => rfl
  | some tr, ht =>
    obtain ⟨m, hm⟩ := Option.isSome_iff_exists.mp (ht tr rfl)
    simp only [hm, hpath]
    by_cases hz : tr.cover_zones.isEmpty
    · rw [if_pos hz]
    · rw [if_neg hz]
      by_cases hc : m.isEmpty
      · rw [if_pos hc]
      · rw [if_neg hc]
        rfl

/-- C10 witness: "B2" and "B1" are adjacent; a half-cover zone containing
both cells still yields no cover. -/
theorem C10_adjacent_cells_no_cover_witness :
    get_cover (s2c "B2") (s2c "B1")
      (some { name := s2c "walls",
              cover_zones := [{ ztype := .half,
                                cells := some [s2c "B1", s2c "B2"] }] }) =
      some .noCover :=
  C10_adjacent_cells_no_cover (s2c "B2") (s2c "B1") (1, 1) (1, 0) _
    (by decide) (by decide) (by decide) (by decide)

/-- src/domain/combat_state.py `CombatState` (immutable snapshot).  The
creature mapping is an insertion-ordered association list with unique keys,
like a Python dict; `combat_log` is omitted (the engine logs through the
separate `CombatLogger`, never through `add_log`). -/
structure CombatState where
  creatures : List (Str × Creature)
  initiative_order : List Str
  current_turn : Nat := 0
  round : Nat := 1
  is_over : Bool := false
  winner : Option Str := none
  reaction_used : List Str := []
  deriving DecidableEq

/-- Python `state.creatures[cid]` (`none` is a KeyError). -/
def CombatState.lookupCreature (s : CombatState) (cid : Str) : Option Creature :=
  s.creatures.lookup cid

/-- src/domain/combat_state.py `CombatState.update_creature`: look up the
creature (KeyError if absent) and return a new state with the updated copy
in place. -/
def CombatState.update_creature (s : CombatState) (cid : Str)
    (f : Creature → Creature) : Option CombatState :=
  match s.creatures.lookup cid with
  | none => none
  | some _ =>
    some { s with creatures :=
      s.creatures.map fun p => if p.1 = cid then (p.1, f p.2) else p }

/-- src/domain/combat_state.py `CombatState.set_reaction_used`: add the id to
the reaction set (the frozenset is modelled as a duplicate-free list). -/
def CombatState.set_reaction_used (s : CombatState) (cid : Str) : CombatState :=
  if s.reaction_used.contains cid then s
  else { s with reaction_used := s.reaction_used ++ [cid] }

/-- src/domain/combat_state.py `CombatState.next_turn`: advance the pointer;
wrapping past the end of the initiative order starts a new round and clears
the reaction set. -/
def CombatState.next_turn (s : CombatState) : CombatState :=
  if s.current_turn + 1 ≥ s.initiative_order.length then
    { s with current_turn := 0, round := s.round + 1, reaction_used := [] }
  else { s with current_turn := s.current_turn + 1 }

/-- The distinct team tags, in first-appearance order (the keys of the
Python `teams` dict built by src/simulation/victory.py). -/
def distinctTeams (s : CombatState) : List Str :=
  (s.creatures.map fun p => p.2.team).eraseDups

/-- src/simulation/victory.py `is_combat_over`: some team has every member
at 0 HP or less. -/
def is_combat_over (s : CombatState) : Bool :=
  (distinctTeams s).any fun t =>
    (s.creatures.filter fun p => p.2.team == t).all fun p =>
      decide (p.2.current_hp ≤ 0)

/-- src/simulation/victory.py `get_winner`: the unique team with a living
member, else `None`. -/
def get_winner (s : CombatState) : Option Str :=
  match (distinctTeams s).filter (fun t =>
      (s.creatures.filter fun p => p.2.team == t).any fun p =>
        decide (p.2.current_hp > 0)) with
  | [t] => some t
  | _ => none

/-- The shared pseudo-random stream: draw `i` of the run has value
`vals i`; `idx` is the position of the next draw. -/
structure Rng where
  vals : Nat → Nat
  idx : Nat := 0

/-- Consume one draw from the stream. -/
def Rng.draw (r : Rng) : Nat × Rng := (r.vals r.idx, { r with idx := r.idx + 1 })

/-- Skip `n` draws. -/
def Rng.advance (r : Rng) (n : Nat) : Rng := { r with idx := r.idx + n }

/-- Number of dice a valid d20-library expression rolls (0 for flat values
and for invalid expressions, which raise before rolling). -/
def diceCountOf (s : Str) : Nat :=
  match d20_parse s with
  | some (n, _, _) => n
  | none => 0

/-- `roll_damage` against the shared stream: the dice take the next
`diceCountOf` draws in order. -/
def roll_damage_rng (rng : Rng) (s : Str) : Option (Int × Rng) :=
  (roll_damage (fun i => rng.vals (rng.idx + i)) s).map
    fun v => (v, rng.advance (diceCountOf s))

/-- `roll_damage_for_attack` against the shared stream (same structure as the
explicit-dice version above). -/
def roll_damage_for_attack_rng (rng : Rng) (damage_dice_str : Str)
    (is_critical : Bool) : Option (Int × Rng) :=
  if is_critical then
    let p := parse_dice_expression damage_dice_str
    if p.1 > 0 ∧ p.2.1 > 0 then roll_damage_rng rng (crit_dice_expr p)
    else some (p.2.2, rng)
  else roll_damage_rng rng damage_dice_str

/-- The agent contract value (src/agents; `AgentAction`): only the fields
the engine reads.  Description/strategy strings are logging only. -/
structure AgentAction where
  action_type : Str
  attack_name : Option Str := none
  target_id : Option Str := none
  target_position : Option Str := none
  move_to : Option Str := none

/-- Python truthiness of an optional string: present and nonempty. -/
def truthy : Option Str → Bool
  | some s => !s.isEmpty
  | none => false

/-- Python `a or b` for an optional string with a string default. -/
def orElseStr (o : Option Str) (d : Str) : Str :=
  match o with
  | some s => if s.isEmpty then d else s
  | none => d

/-- src/simulation/simulator.py `_find_action`: first action with the given
name; a `None` name matches nothing. -/
def find_action (c : Creature) (action_name : Option Str) : Option Action :=
  match action_name with
  | none => none
  | some n => c.actions.find? fun a => a.name == n

/-- src/simulation/simulator.py `_get_melee_reach` inner loop over the
flattened attacks: first attack with a declared reach gives that reach; an
attack with neither reach nor range gives the 5-foot default; pure ranged
attacks are skipped; no attacks at all default to 5. -/
def meleeReachAux : List Attack → Int
  | [] => 5
  | a :: rest =>
    match a.reach with
    | some r => r
    | none => if a.range = none then 5 else meleeReachAux rest

/-- src/simulation/simulator.py `_get_melee_reach`. -/
def get_melee_reach (c : Creature) : Int :=
  meleeReachAux (c.actions.flatMap fun a => a.attacks)

/-- src/simulation/simulator.py `_first_melee_attack`: first (action, attack)
pair whose attack has a reach or lacks a range. -/
def first_melee_attack (c : Creature) : Option (Action × Attack) :=
  (c.actions.flatMap fun act => act.attacks.map fun atk => (act, atk)).find?
    fun p => p.2.reach.isSome || p.2.range.isNone

/-- The cover bonus computed at each attack site of the simulator:
0 without terrain, else `get_cover` mapped through the 2/5 bonus table
(propagating a coordinate error). -/
def cover_bonus_at (attacker_pos target_pos : Str) (terrain : Option Terrain) :
    Option Int :=
  match terrain with
  | none => some 0
  | some _ => (get_cover attacker_pos target_pos terrain).map cover_bonus_of

/-- The enemy loop of src/simulation/simulator.py
`_resolve_opportunity_attacks`: each living enemy of the mover that still has
its reaction and whose melee reach covered `from_pos` but not `to_pos` makes
one melee attack against the mover (cover-adjusted AC, reaction spent whether
or not it hits); the loop stops early once the mover is down or combat is
over. -/
def oaLoop (mover_id : Str) (from_pos to_pos : Str) (mover_team : Str)
    (terrain : Option Terrain) :
    List Str → CombatState → Rng → Option (CombatState × Rng)
  | [], state, rng => some (state, rng)
  | enemy_id :: rest, state, rng =>
    if enemy_id == mover_id then
      oaLoop mover_id from_pos to_pos mover_team terrain rest state rng
    else
      match state.lookupCreature enemy_id with
      | none => none
      | some enemy =>
        if enemy.current_hp ≤ 0 || enemy.team == mover_team then
          oaLoop mover_id from_pos to_pos mover_team terrain rest state rng
        else if state.reaction_used.contains enemy_id then
          oaLoop mover_id from_pos to_pos mover_team terrain rest state rng
        else
          let reach_ft := get_melee_reach enemy
          match distance_in_feet from_pos enemy.position with
          | none => none
          | some d1 =>
            if (d1 : Int) > reach_ft then
              oaLoop mover_id from_pos to_pos mover_team terrain rest state rng
            else
              match distance_in_feet to_pos enemy.position with
              | none => none
              | some d2 =>
                if (d2 : Int) ≤ reach_ft then
                  oaLoop mover_id from_pos to_pos mover_team terrain rest state rng
                else
                  match first_melee_attack enemy with
                  | none =>
                    oaLoop mover_id from_pos to_pos mover_team terrain rest state rng
                  | some (_action_obj, atk) =>
                    match state.lookupCreature mover_id with
                    | none => none
                    | some target =>
                      match cover_bonus_at enemy.position target.position terrain with
                      | none => none
                      | some cover_bonus =>
                        let drawn := rng.draw
                        let res := make_attack_roll (drawn.1 : Int)
                          atk.attack_bonus target.ac cover_bonus
                        let state1 := state.set_reaction_used enemy_id
                        if res.is_hit then
                          match roll_damage_for_attack_rng drawn.2
                              atk.damage.dice res.is_critical with
                          | none => none
                          | some (dmg, rng2) =>
                            let p := apply_damage_modifiers dmg
                              atk.damage.damage_type target
                            let new_hp := max 0 (target.current_hp - p.1)
                            match state1.update_creature mover_id
                                (fun cr => { cr with current_hp := new_hp }) with
                            | none => none
                            | some state2 =>
                              match state2.lookupCreature mover_id with
                              | none => none
                              | some mover2 =>
                                if mover2.current_hp ≤ 0 || is_combat_over state2 then
                                  some (state2, rng2)
                                else
                                  oaLoop mover_id from_pos to_pos mover_team
                                    terrain rest state2 rng2
                        else
                          match state1.lookupCreature mover_id with
                          | none => none
                          | some mover2 =>
                            if mover2.current_hp ≤ 0 || is_combat_over state1 then
                              some (state1, drawn.2)
                            else
                              oaLoop mover_id from_pos to_pos mover_team
                                terrain rest state1 drawn.2

/-- src/simulation/simulator.py `_resolve_opportunity_attacks`. -/
def resolve_opportunity_attacks (state : CombatState) (mover_id : Str)
    (from_pos to_pos : Str) (terrain : Option Terrain) (rng : Rng) :
    Option (CombatState × Rng) :=
  match state.lookupCreature mover_id with
  | none => none
  | some mover =>
    oaLoop mover_id from_pos to_pos mover.team terrain
      state.initiative_order state rng

/-- Effective AoE save DC (`action_obj.save_dc or 14`: a falsy 0 also falls
back to 14). -/
def effective_save_dc (a : Action) : Int :=
  match a.save_dc with
  | some d => if d == 0 then 14 else d
  | none => 14

/-- Effective AoE save ability (`(action_obj.save_ability or "dex").lower()`). -/
def effective_save_ability (a : Action) : Str :=
  pyLower (match a.save_ability with
    | some s => if s.isEmpty then s2c "dex" else s
    | none => s2c "dex")

/-- The target-collection loop of `_resolve_aoe`: living creatures within
`radius` Manhattan squares of the center, in creature-mapping order
(coordinate errors raise). -/
def collectTargets (center : Str) (radius : Int) :
    List (Str × Creature) → Option (List Str)
  | [] => some []
  | (cid, cr) :: rest =>
    if cr.current_hp ≤ 0 then collectTargets center radius rest
    else
      match manhattan_distance center cr.position with
      | none => none
      | some d =>
        match collectTargets center radius rest with
        | none => none
        | some tail =>
          some (if (d : Int) ≤ radius then cid :: tail else tail)

/-- The per-target loop of `_resolve_aoe`: each target rolls one save (with
its ability modifier and cover bonus) against the DC, then takes the shared
rolled damage — floor-halved on a success — through the damage-modifier
pipeline, with HP clamped at 0. -/
def aoeApplyLoop (save_dc : Int) (save_ability : Str) (roll_total : Int)
    (damage_type : Str) (terrain : Option Terrain) (center : Str) :
    List Str → CombatState → Rng → Option (CombatState × Rng)
  | [], state, rng => some (state, rng)
  | tid :: rest, state, rng =>
    match state.lookupCreature tid with
    | none => none
    | some target =>
      match cover_bonus_at center target.position terrain with
      | none => none
      | some cover_bonus =>
        let drawn := rng.draw
        let save_result := make_saving_throw (drawn.1 : Int)
          (target.ability_scores.get_modifier save_ability) save_dc cover_bonus
        let damage_this :=
          if save_result.is_success then roll_total.fdiv 2 else roll_total
        let p := apply_damage_modifiers damage_this damage_type target
        let new_hp := max 0 (target.current_hp - p.1)
        match state.update_creature tid
            (fun cr => { cr with current_hp := new_hp }) with
        | none => none
        | some state1 =>
          aoeApplyLoop save_dc save_ability roll_total damage_type terrain
            center rest state1 drawn.2

/-- src/simulation/simulator.py `_resolve_aoe`: guard on a sphere AoE with
damage; collect the targets; if any, roll the damage once and apply it to
each target through the save-and-modifiers loop. -/
def resolve_aoe (state : CombatState) (caster_id : Str) (action_obj : Action)
    (center : Str) (terrain : Option Terrain) (rng : Rng) :
    Option (CombatState × Rng) :=
  if !action_obj.is_aoe || action_obj.area_shape ≠ some (s2c "sphere") ||
      action_obj.damage = none then
    some (state, rng)
  else
    match action_obj.radius_squares, action_obj.damage with
    | some radius, some dmg =>
      match state.lookupCreature caster_id with
      | none => none
      | some _caster =>
        match collectTargets center radius state.creatures with
        | none => none
        | some targets =>
          if targets.isEmpty then some (state, rng)
          else
            match roll_damage_for_attack_rng rng dmg.dice false with
            | none => none
            | some (roll_total, rng1) =>
              aoeApplyLoop (effective_save_dc action_obj)
                (effective_save_ability action_obj) roll_total
                dmg.damage_type terrain center targets state rng1
    | _, _ => some (state, rng)

/-- The sub-attack loop of the attack / move_and_attack branch of
`run_combat`: every attack of the chosen action is resolved in order against
the (re-fetched) target; the sequence stops once the target is down; each hit
rolls damage, applies the modifier pipeline and clamps HP at 0. -/
def attackSequence (target_id : Str) (attacker : Creature)
    (terrain : Option Terrain) :
    List Attack → CombatState → Rng → Option (CombatState × Rng)
  | [], state, rng => some (state, rng)
  | atk :: rest, state, rng =>
    match state.lookupCreature target_id with
    | none => none
    | some target =>
      if target.current_hp ≤ 0 then some (state, rng)
      else
        match cover_bonus_at attacker.position target.position terrain with
        | none => none
        | some cover_bonus =>
          let drawn := rng.draw
          let res := make_attack_roll (drawn.1 : Int) atk.attack_bonus
            target.ac cover_bonus
          if res.is_hit then
            match roll_damage_for_attack_rng drawn.2 atk.damage.dice
                res.is_critical with
            | none => none
            | some (dmg, rng2) =>
              let p := apply_damage_modifiers dmg atk.damage.damage_type target
              let new_hp := max 0 (target.current_hp - p.1)
              match state.update_creature target_id
                  (fun cr => { cr with current_hp := new_hp }) with
              | none => none
              | some state1 => attackSequence target_id attacker terrain rest state1 rng2
          else attackSequence target_id attacker terrain rest state drawn.2

/-- The attack part of the attack / move_and_attack branch: fetch the target
(KeyError if the id is unknown), find the named action, and run its attack
list if nonempty. -/
def doAttack (c : Creature) (action : AgentAction) (terrain : Option Terrain)
    (state : CombatState) (rng : Rng) : Option (CombatState × Rng) :=
  match action.target_id with
  | none => none
  | some tid =>
    match state.lookupCreature tid with
    | none => none
    | some _target =>
      match find_action c action.attack_name with
      | some action_obj =>
        if !action_obj.attacks.isEmpty then
          attackSequence tid c terrain action_obj.attacks state rng
        else some (state, rng)
      | none => some (state, rng)

/-- The per-creature body of `run_combat`'s turn loop, iterating the
initiative order.  The returned flag is true when the loop broke because
combat ended.  Control flow mirrors the source exactly: dead creatures are
skipped with `continue` (no `next_turn`); the AoE branch advances the turn
itself and continues; a mover dropped by an opportunity attack `continue`s
without `next_turn`; the remaining paths fall through to the bottom
`next_turn` + combat-over check.  An `aoe` or `attack` action whose inner
condition fails matches neither of the later action-type branches, so it
falls through to the bottom `next_turn` directly, which this embedding
inlines. -/
def runTurns (agent : CombatState → Str → AgentAction)
    (terrain : Option Terrain) :
    List Str → CombatState → Rng → Option (CombatState × Rng × Bool)
  | [], state, rng => some (state, rng, false)
  | cid :: rest, state, rng =>
    match state.lookupCreature cid with
    | none => none
    | some c =>
      if c.current_hp ≤ 0 then runTurns agent terrain rest state rng
      else
        let action := agent state cid
        if action.action_type == s2c "aoe" && truthy action.attack_name then
          match find_action c action.attack_name with
          | some action_obj =>
            if action_obj.is_aoe then
              match resolve_aoe state cid action_obj
                  (orElseStr action.target_position c.position) terrain rng with
              | none => none
              | some (state1, rng1) =>
                let state2 := state1.next_turn
                if is_combat_over state2 then some (state2, rng1, true)
                else runTurns agent terrain rest state2 rng1
            else
              let state2 := state.next_turn
              if is_combat_over state2 then some (state2, rng, true)
              else runTurns agent terrain rest state2 rng
          | none =>
            let state2 := state.next_turn
            if is_combat_over state2 then some (state2, rng, true)
            else runTurns agent terrain rest state2 rng
        else if (action.action_type == s2c "attack" ||
            action.action_type == s2c "move_and_attack") &&
            truthy action.target_id then
          if truthy action.move_to then
            match action.move_to with
            | none => none
            | some move_to =>
              match resolve_opportunity_attacks state cid c.position move_to
                  terrain rng with
              | none => none
              | some (stateA, rngA) =>
                if is_combat_over stateA then some (stateA, rngA, true)
                else
                  match stateA.lookupCreature cid with
                  | none => none
                  | some cMoved =>
                    if cMoved.current_hp ≤ 0 then
                      runTurns agent terrain rest stateA rngA
                    else
                      match stateA.update_creature cid
                          (fun cr => { cr with position := move_to }) with
                      | none => none
                      | some stateB =>
                        match stateB.lookupCreature cid with
                        | none => none
                        | some cB =>
                          match doAttack cB action terrain stateB rngA with
                          | none => none
                          | some (stateC, rngC) =>
                            let state2 := stateC.next_turn
                            if is_combat_over state2 then some (state2, rngC, true)
                            else runTurns agent terrain rest state2 rngC
          else
            match doAttack c action terrain state rng with
            | none => none
            | some (stateC, rngC) =>
              let state2 := stateC.next_turn
              if is_combat_over state2 then some (state2, rngC, true)
              else runTurns agent terrain rest state2 rngC
        else if action.action_type == s2c "move" && truthy action.move_to then
          match action.move_to with
          | none => none
          | some move_to =>
            match resolve_opportunity_attacks state cid c.position move_to
                terrain rng with
            | none => none
            | some (stateA, rngA) =>
              if is_combat_over stateA then some (stateA, rngA, true)
              else
                match stateA.lookupCreature cid with
                | none => none
                | some cMoved =>
                  if cMoved.current_hp ≤ 0 then
                    runTurns agent terrain rest stateA rngA
                  else
                    match stateA.update_creature cid
                        (fun cr => { cr with position := move_to }) with
                    | none => none
                    | some stateB =>
                      let state2 := stateB.next_turn
                      if is_combat_over state2 then some (state2, rngA, true)
                      else runTurns agent terrain rest state2 rngA
        else
          let state2 := state.next_turn
          if is_combat_over state2 then some (state2, rng, true)
          else runTurns agent terrain rest state2 rng

/-- The round loop of `run_combat` (`for r in range(max_rounds)`), breaking
as soon as combat is over. -/
def runRounds (agent : CombatState → Str → AgentAction)
    (terrain : Option Terrain) :
    Nat → CombatState → Rng → Option (CombatState × Rng)
  | 0, state, rng => some (state, rng)
  | fuel + 1, state, rng =>
    match runTurns agent terrain state.initiative_order state rng with
    | none => none
    | some (state1, rng1, broke) =>
      if broke then some (state1, rng1)
      else if is_combat_over state1 then some (state1, rng1)
      else runRounds agent terrain fuel state1 rng1

/-- Initiative rolls of `run_combat`: one d20 draw per creature in mapping
order, plus the creature's initiative bonus. -/
def rollInitiative : List (Str × Creature) → Rng → List (Str × Int) × Rng
  | [], rng => ([], rng)
  | (cid, cr) :: rest, rng =>
    let drawn := rng.draw
    let tail := rollInitiative rest drawn.2
    ((cid, (drawn.1 : Int) + cr.initiative_bonus) :: tail.1, tail.2)

/-- Python string comparison (code-point lexicographic). -/
def lexLe : Str → Str → Bool
  | [], _ => true
  | _ :: _, [] => false
  | a :: as2, b :: bs =>
    if a < b then true else if b < a then false else lexLe as2 bs

/-- Ordering key of the initiative sort: total descending, ties broken by
creature id ascending (`key=lambda cid: (-total, cid)`). -/
def initBefore (a b : Str × Int) : Bool :=
  decide (a.2 > b.2) || (a.2 == b.2 && lexLe a.1 b.1)

/-- Insertion step of the initiative sort. -/
def insertInit (x : Str × Int) : List (Str × Int) → List (Str × Int)
  | [] => [x]
  | y :: ys => if initBefore x y then x :: y :: ys else y :: insertInit x ys

/-- The sorted initiative list (insertion sort; creature ids are unique so
the comparison key is total and the result agrees with Python `sorted`). -/
def sortInit (l : List (Str × Int)) : List (Str × Int) :=
  l.foldr insertInit []

/-- src/simulation/simulator.py `run_combat`: roll initiative, build the
initial state, run the round loop.  Logging, the LLM circuit-breaker resets,
seeding and the pause prompt are I/O only and omitted; the winner is read off
the final state by `get_winner` as in the source. -/
def run_combat (creatures : List (Str × Creature))
    (agent : CombatState → Str → AgentAction) (max_rounds : Nat)
    (terrain : Option Terrain) (rng : Rng) : Option (CombatState × Rng) :=
  let rolled := rollInitiative creatures rng
  let initiative_order := (sortInit rolled.1).map Prod.fst
  let state : CombatState :=
    { creatures := creatures, initiative_order := initiative_order }
  runRounds agent terrain max_rounds state rolled.2

/-- A fragile party member at A1 who will walk out of the enemy's reach. -/
def c2Mover : Creature :=
  { name := s2c "Alice", ac := 10, hp_max := 4, current_hp := 4,
    team := s2c "party", position := s2c "A1" }

/-- An enemy at A2 with a 5-foot-reach bite. -/
def c2Enemy : Creature :=
  { name := s2c "Boar", ac := 12, hp_max := 10, current_hp := 10,
    team := s2c "enemy", position := s2c "A2",
    actions := [{ name := s2c "Bite",
                  attacks := [{ name := s2c "Bite", attack_bonus := 5,
                                damage := { dice := s2c "1d4",
                                            damage_type := s2c "piercing" },
                                reach := some 5 }] }] }

/-- A second party member far away, so the party survives the mover. -/
def c2Ally : Creature :=
  { name := s2c "Cleo", ac := 10, hp_max := 10, current_hp := 10,
    team := s2c "party", position := s2c "E5" }

/-- The three-creature roster for the C2 run. -/
def c2Creatures : List (Str × Creature) :=
  [(s2c "a", c2Mover), (s2c "b", c2Enemy), (s2c "c", c2Ally)]

/-- Agent for the C2 run: the mover walks from A1 to A4 (leaving the enemy's
reach); everyone else dodges. -/
def c2Agent : CombatState → Str → AgentAction := fun _ cid =>
  if cid = s2c "a" then { action_type := s2c "move", move_to := some (s2c "A4") }
  else { action_type := s2c "dodge" }

/-- Random stream for the C2 run: initiative 20/15/10 (order a, b, c), then
an opportunity-attack roll of 10 (a hit) and a damage die of 4 (dropping the
4-HP mover to 0). -/
def c2Rng : Rng :=
  { vals := fun i =>
      if i = 0 then 20 else if i = 1 then 15 else if i = 2 then 10
      else if i = 3 then 10 else if i = 4 then 4 else 1 }

/-- C2: evaluating the code at the failing input.  In a one-round combat
where the first creature's move is cancelled because the opportunity attack
drops it to 0 HP, `run_combat` skips `next_turn` for that creature (the
`continue` at src/simulation/simulator.py:329 bypasses it): after the full
round the turn pointer sits at 2 out of 3 (it never wrapped), the state's
round counter is still 1, and the reaction-used set still contains the enemy
instead of having been cleared at the round boundary.  Under the claim all
three turns advance the pointer, so it would have wrapped to 0 with round 2
and an empty reaction set. -/
theorem C2_dropped_mover_skips_next_turn :
    (run_combat c2Creatures c2Agent 1 none c2Rng).map
      (fun p => (p.1.current_turn, p.1.round, p.1.reaction_used,
        (p.1.creatures.lookup (s2c "a")).map Creature.current_hp)) =
      some (2, 1, [s2c "b"], some 0) ∧
    (2, 1, [s2c "b"]) ≠ (0, 2, ([] : List Str)) := by
  constructor
  · decide
  · decide

theorem lookup_cons_pair (k a : Str) (v : Creature) (t : List (Str × Creature)) :
    ((k, v) :: t).lookup a = if a = k then some v else t.lookup a := by
  by_cases h : a = k
  · simp [List.lookup, h]
  · have h2 : (a == k) = false := beq_eq_false_iff_ne.mpr h
    simp [List.lookup, h2, h]

theorem lookup_map_update (l : List (Str × Creature)) (cid : Str)
    (f : Creature → Creature) (cid2 : Str) :
    (l.map fun p => if p.1 = cid then (p.1, f p.2) else p).lookup cid2 =
      if cid2 = cid then (l.lookup cid).map f else l.lookup cid2 := by
  induction l with
  | nil => by_cases h : cid2 = cid <;> simp [h]
  | cons hd tl ih =>
    obtain ⟨k, v⟩ := hd
    simp only [List.map_cons]
    by_cases h1 : k = cid
    · subst h1
      by_cases h2 : cid2 = k
      · subst h2
        simp [lookup_cons_pair]
      · simp [lookup_cons_pair, h2, ih]
    · have h1s : ¬cid = k := fun e => h1 (Eq.symm e)
      by_cases h2 : cid2 = k
      · subst h2
        simp [lookup_cons_pair, h1, h1s]
      · simp [lookup_cons_pair, h1, h2, h1s, ih]

theorem update_creature_eq (s : CombatState) (cid : Str)
    (f : Creature → Creature) (cr : Creature)
    (h : s.creatures.lookup cid = some cr) :
    s.update_creature cid f =
      some { s with creatures :=
        s.creatures.map fun p => if p.1 = cid then (p.1, f p.2) else p } := by
  unfold CombatState.update_creature
  rw [h]

/-- C3 helper: `collectTargets` succeeds on well-positioned creatures and
returns exactly the living creature ids within the radius, without
duplicates. -/
theorem collectTargets_spec (center : Str) (radius : Int) :
    ∀ l : List (Str × Creature),
    (∀ cid cr, (cid, cr) ∈ l →
      ∃ d, manhattan_distance center cr.position = some d) →
    (l.map Prod.fst).Nodup →
    ∃ ts, collectTargets center radius l = some ts ∧ ts.Nodup ∧
      (∀ tid, tid ∈ ts → tid ∈ l.map Prod.fst) ∧
      (∀ cid, cid ∈ ts ↔ ∃ cr, l.lookup cid = some cr ∧ 0 < cr.current_hp ∧
        ∃ d, manhattan_distance center cr.position = some d ∧
          (d : Int) ≤ radius) := by
  intro l
  induction l with
  | nil =>
    intro _ _
    refine ⟨[], rfl, List.nodup_nil, by simp, fun cid => ?_⟩
    simp
  | cons hd rest ih =>
    intro hpos hnd
    obtain ⟨cid0, cr0⟩ := hd
    simp only [List.map_cons, List.nodup_cons] at hnd
    obtain ⟨hnotin, hndrest⟩ := hnd
    obtain ⟨ts, hts, hndts, hsub, hiff⟩ :=
      ih (fun cid cr hm => hpos cid cr (List.mem_cons_of_mem _ hm)) hndrest
    by_cases hdead : cr0.current_hp ≤ 0
    · refine ⟨ts, ?_, hndts, ?_, ?_⟩
      · simp only [collectTargets, if_pos hdead, hts]
      · intro tid htid
        exact List.mem_cons_of_mem _ (hsub tid htid)
      · intro cid
        by_cases hc : cid = cid0
        · subst hc
          constructor
          · intro hmem
            exact absurd (hsub cid hmem) hnotin
          · rintro ⟨cr, hcr, hhp, -⟩
            rw [lookup_cons_pair, if_pos rfl] at hcr
            obtain rfl : cr0 = cr := by injection hcr
            omega
        · rw [hiff cid]
          rw [lookup_cons_pair, if_neg hc]
    · obtain ⟨d, hd⟩ := hpos cid0 cr0 (List.mem_cons_self _ _)
      by_cases hin : (d : Int) ≤ radius
      · refine ⟨cid0 :: ts, ?_, ?_, ?_, ?_⟩
        · simp only [collectTargets, if_neg hdead, hd, hts, if_pos hin]
        · exact List.nodup_cons.mpr ⟨fun hm => hnotin (hsub cid0 hm), hndts⟩
        · intro tid htid
          rcases List.mem_cons.mp htid with h | h
          · subst h
            simp
          · exact List.mem_cons_of_mem _ (hsub tid h)
        · intro cid
          by_cases hc : cid = cid0
          · subst hc
            simp only [List.mem_cons, true_or, true_iff]
            exact ⟨cr0, by rw [lookup_cons_pair, if_pos rfl], by omega, d, hd, hin⟩
          · rw [List.mem_cons]
            rw [lookup_cons_pair, if_neg hc]
            constructor
            · rintro (h | h)
              · exact absurd h hc
              · exact (hiff cid).mp h
            · intro h
              exact Or.inr ((hiff cid).mpr h)
      · refine ⟨ts, ?_, hndts, ?_, ?_⟩
        · simp only [collectTargets, if_neg hdead, hd, hts, if_neg hin]
        · intro tid htid
          exact List.mem_cons_of_mem _ (hsub tid htid)
        · intro cid
          by_cases hc : cid = cid0
          · subst hc
            constructor
            · intro hmem
              exact absurd (hsub cid hmem) hnotin
            · rintro ⟨cr, hcr, hhp, d2, hd2, hd2r⟩
              rw [lookup_cons_pair, if_pos rfl] at hcr
              obtain rfl : cr0 = cr := by injection hcr
              rw [hd] at hd2
              obtain rfl : d = d2 := by injection hd2
              exact absurd hd2r hin
          · rw [hiff cid]
            rw [lookup_cons_pair, if_neg hc]

theorem advance_zero (rng : Rng) : rng.advance 0 = rng := by
  cases rng
  simp [Rng.advance]

/-- C3 helper: the AoE per-target loop applies, to the i-th target, exactly
one independent save draw (stream position `idx + i`) and the shared damage
total (halved on success) through the modifier pipeline, and leaves every
non-target creature untouched. -/
theorem aoeApplyLoop_spec (dc : Int) (ability : Str) (D : Int) (dtype : Str)
    (terrain : Option Terrain) (center : Str) (covB : Str → Int) :
    ∀ (targets : List Str) (state : CombatState) (rng : Rng),
    targets.Nodup →
    (∀ tid, tid ∈ targets → ∃ cr, state.creatures.lookup tid = some cr ∧
        cover_bonus_at center cr.position terrain = some (covB tid)) →
    ∃ s2, aoeApplyLoop dc ability D dtype terrain center targets state rng =
        some (s2, rng.advance targets.length) ∧
      (∀ cid, cid ∉ targets →
        s2.creatures.lookup cid = state.creatures.lookup cid) ∧
      (∀ i (hi : i < targets.length) cr,
        state.creatures.lookup (targets.get ⟨i, hi⟩) = some cr →
        s2.creatures.lookup (targets.get ⟨i, hi⟩) =
          some { cr with current_hp := max 0 (cr.current_hp -
            (apply_damage_modifiers
              (if (rng.vals (rng.idx + i) : Int) +
                  cr.ability_scores.get_modifier ability ≥ dc
               then D.fdiv 2 else D) dtype cr).1) }) := by
  intro targets
  induction targets with
  | nil =>
    intro state rng _ _
    refine ⟨state, ?_, fun cid _ => rfl, fun i hi => absurd hi (by simp)⟩
    simp [aoeApplyLoop, advance_zero]
  | cons tid rest ih =>
    intro state rng hnd hmem
    obtain ⟨hnin, hndr⟩ := List.nodup_cons.mp hnd
    obtain ⟨cr0, hcr0, hcov0⟩ := hmem tid (List.mem_cons_self _ _)
    set f : Creature → Creature := fun cr =>
      { cr with current_hp := max 0 (cr0.current_hp -
          (apply_damage_modifiers
            (if (make_saving_throw ((rng.vals rng.idx : Int))
                (cr0.ability_scores.get_modifier ability) dc
                (covB tid)).is_success
             then D.fdiv 2 else D) dtype cr0).1) } with hf
    set state1 : CombatState :=
      { state with creatures :=
          state.creatures.map fun p => if p.1 = tid then (p.1, f p.2) else p }
      with hstate1
    have hupd : state.update_creature tid f = some state1 :=
      update_creature_eq state tid f cr0 hcr0
    have hlook1 : ∀ cid2, state1.creatures.lookup cid2 =
        if cid2 = tid then (state.creatures.lookup tid).map f
        else state.creatures.lookup cid2 := by
      intro cid2
      rw [hstate1]
      exact lookup_map_update state.creatures tid f cid2
    obtain ⟨s2, heq2, hunch2, hform2⟩ := ih state1 (rng.advance 1) hndr
      (by
        intro tid2 htid2
        obtain ⟨cr2, hcr2, hcov2⟩ := hmem tid2 (List.mem_cons_of_mem _ htid2)
        have hne : tid2 ≠ tid := fun e => hnin (e ▸ htid2)
        refine ⟨cr2, ?_, hcov2⟩
        rw [hlook1, if_neg hne]
        exact hcr2)
    refine ⟨s2, ?_, ?_, ?_⟩
    · have heq2' := heq2
      simp only [Rng.advance] at heq2'
      simp only [aoeApplyLoop, CombatState.lookupCreature, hcr0, hcov0, Rng.draw]
      rw [← hf, hupd]
      simp only [List.length_cons]
      rw [heq2']
      simp only [Rng.advance, Option.some.injEq, Prod.mk.injEq]
      refine ⟨trivial, ?_⟩
      congr 1
      omega
    · intro cid hcid
      have h1 : cid ≠ tid := fun e => hcid (e ▸ List.mem_cons_self _ _)
      have h2 : cid ∉ rest := fun hm => hcid (List.mem_cons_of_mem _ hm)
      rw [hunch2 cid h2, hlook1, if_neg h1]
    · intro i hi cr hcr
      match i with
      | 0 =>
        have hget : (tid :: rest).get ⟨0, hi⟩ = tid := rfl
        rw [hget] at hcr ⊢
        obtain rfl : cr0 = cr := by
          rw [hcr0] at hcr
          injection hcr
        rw [hunch2 tid hnin, hlook1, if_pos rfl, hcr0]
        simp only [Option.map_some, Option.some.injEq, hf]
        congr 1
        have hsucc : (make_saving_throw ((rng.vals rng.idx : Int))
            (cr0.ability_scores.get_modifier ability) dc
            (covB tid)).is_success =
            decide ((rng.vals (rng.idx + 0) : Int) +
              cr0.ability_scores.get_modifier ability ≥ dc) := rfl
        rw [hsucc]
        simp [decide_eq_true_eq]
      | Nat.succ j =>
        have hj : j < rest.length := by
          simp only [List.length_cons] at hi
          omega
        have hget : (tid :: rest).get ⟨j + 1, hi⟩ = rest.get ⟨j, hj⟩ := rfl
        rw [hget] at hcr ⊢
        have hmemj : rest.get ⟨j, hj⟩ ∈ rest := List.get_mem rest j hj
        have hne : rest.get ⟨j, hj⟩ ≠ tid := fun e => hnin (e ▸ hmemj)
        have hcr1 : state1.creatures.lookup (rest.get ⟨j, hj⟩) = some cr := by
          rw [hlook1, if_neg hne]
          exact hcr
        have := hform2 j hj cr hcr1
        have hidx : (rng.advance 1).idx + j = rng.idx + (j + 1) := by
          simp only [Rng.advance]
          omega
        rw [hidx] at this
        exact this

/-- C3: an AoE action resolves as follows.  The affected set is exactly the
living creatures (allies and caster included, teams ignored) whose position
is within Manhattan `radius` of the center.  If no one is affected nothing
changes.  Otherwise the damage is rolled exactly once (the single total `D`
drawn from the stream before the loop), and the i-th affected creature makes
its own independent saving throw — the draw at stream position `idx + i` —
with the modifier of the named save ability against the effective DC (the
cover bonus computed per target is handed to the save routine but, per the
spec's description of saving throws, plays no part in the comparison); on
success the floor-halved damage and on failure the full
damage is passed through that creature's immunity/resistance/vulnerability
pipeline and subtracted from its HP (clamped at 0).  Every creature outside
the affected set, in particular every creature strictly outside the radius,
is left completely unchanged. -/
theorem C3_aoe_radius_and_independent_saves
    (state : CombatState) (caster_id : Str) (a : Action) (center : Str)
    (terrain : Option Terrain) (rng : Rng) (radius : Int) (dmg : DamageRoll)
    (covB : Str → Int)
    (hshape : a.area_shape = some (s2c "sphere"))
    (hrad : a.radius_squares = some radius)
    (hdmg : a.damage = some dmg)
    (hcaster : (state.creatures.lookup caster_id).isSome)
    (hnd : (state.creatures.map Prod.fst).Nodup)
    (hpos : ∀ cid cr, (cid, cr) ∈ state.creatures →
        ∃ d, manhattan_distance center cr.position = some d)
    (hcov : ∀ cid cr, state.creatures.lookup cid = some cr →
        cover_bonus_at center cr.position terrain = some (covB cid)) :
    ∃ targets, collectTargets center radius state.creatures = some targets ∧
      (∀ cid, cid ∈ targets ↔ ∃ cr, state.creatures.lookup cid = some cr ∧
        0 < cr.current_hp ∧
        ∃ d, manhattan_distance center cr.position = some d ∧
          (d : Int) ≤ radius) ∧
      (targets = [] →
        resolve_aoe state caster_id a center terrain rng = some (state, rng)) ∧
      (∀ D rng1,
        roll_damage_for_attack_rng rng dmg.dice false = some (D, rng1) →
        targets ≠ [] →
        ∃ s2, resolve_aoe state caster_id a center terrain rng =
            some (s2, rng1.advance targets.length) ∧
          (∀ cid, cid ∉ targets →
            s2.creatures.lookup cid = state.creatures.lookup cid) ∧
          (∀ i (hi : i < targets.length) cr,
            state.creatures.lookup (targets.get ⟨i, hi⟩) = some cr →
            s2.creatures.lookup (targets.get ⟨i, hi⟩) =
              some { cr with current_hp := max 0 (cr.current_hp -
                (apply_damage_modifiers
                  (if (rng1.vals (rng1.idx + i) : Int) +
                      cr.ability_scores.get_modifier (effective_save_ability a) ≥
                      effective_save_dc a
                   then D.fdiv 2 else D) dmg.damage_type cr).1) })) := by
  obtain ⟨ts, hts, hndts, hsub, hiff⟩ :=
    collectTargets_spec center radius state.creatures hpos hnd
  obtain ⟨cst, hcst⟩ := Option.isSome_iff_exists.mp hcaster
  have hguard : (!a.is_aoe || a.area_shape ≠ some (s2c "sphere") ||
      a.damage = none) = false := by
    simp [Action.is_aoe, hshape, hrad, hdmg]
  refine ⟨ts, hts, hiff, ?_, ?_⟩
  · intro hempty
    subst hempty
    unfold resolve_aoe
    rw [hguard]
    simp only [Bool.false_eq_true, if_false, hrad, hdmg, CombatState.lookupCreature,
      hcst, hts, List.isEmpty_nil, if_pos]
  · intro D rng1 hroll hne
    obtain ⟨s2, happ, hunch, hform⟩ :=
      aoeApplyLoop_spec (effective_save_dc a) (effective_save_ability a) D
        dmg.damage_type terrain center covB ts state rng1 hndts
        (by
          intro tid htid
          obtain ⟨cr, hcr, -, -⟩ := (hiff tid).mp htid
          exact ⟨cr, hcr, hcov tid cr hcr⟩)
    refine ⟨s2, ?_, hunch, hform⟩
    unfold resolve_aoe
    rw [hguard]
    simp only [Bool.false_eq_true, if_false, hrad, hdmg, CombatState.lookupCreature,
      hcst, hts, hroll]
    rw [if_neg (by simpa [List.isEmpty_iff] using hne)]
    exact happ

/-- Wizard template for the C3 witness. -/
def c3Wizard : Creature :=
  { name := s2c "Wizard", ac := 12, hp_max := 20, current_hp := 20,
    team := s2c "party", position := s2c "A1" }

/-- Goblin template for the C3 witness at a chosen position. -/
def c3Goblin (pos : String) : Creature :=
  { name := s2c "Goblin", ac := 15, hp_max := 7, current_hp := 7,
    team := s2c "enemy", position := s2c pos }

/-- The C3 witness state: caster at A1, goblins at C2 (distance 1 from C3),
D4 (distance 3) and F5 (distance 5, outside radius 4). -/
def c3State : CombatState :=
  { creatures := [(s2c "w", c3Wizard), (s2c "g1", c3Goblin "C2"),
      (s2c "g2", c3Goblin "D4"), (s2c "g3", c3Goblin "F5")],
    initiative_order := [s2c "w", s2c "g1", s2c "g2", s2c "g3"] }

/-- The C3 witness action: a sphere of radius 4, DC 15 dex save, 8d6 fire. -/
def c3Fireball : Action :=
  { name := s2c "Fireball", area_shape := some (s2c "sphere"),
    radius_squares := some 4, save_ability := some (s2c "dex"),
    save_dc := some 15,
    damage := some { dice := s2c "8d6", damage_type := s2c "fire" } }

/-- C3 witness: the fireball at C3 on the concrete roster satisfies every
hypothesis (open field, so every cover bonus is 0). -/
theorem C3_aoe_radius_and_independent_saves_witness :
    ∃ targets,
      collectTargets (s2c "C3") 4 c3State.creatures = some targets ∧
      (∀ cid, cid ∈ targets ↔ ∃ cr, c3State.creatures.lookup cid = some cr ∧
        0 < cr.current_hp ∧
        ∃ d, manhattan_distance (s2c "C3") cr.position = some d ∧
          (d : Int) ≤ 4) ∧
      (targets = [] →
        resolve_aoe c3State (s2c "w") c3Fireball (s2c "C3") none
          (Rng.mk (fun _ => 3) 0) =
          some (c3State, Rng.mk (fun _ => 3) 0)) ∧
      (∀ D rng1,
        roll_damage_for_attack_rng (Rng.mk (fun _ => 3) 0) (s2c "8d6") false =
          some (D, rng1) →
        targets ≠ [] →
        ∃ s2, resolve_aoe c3State (s2c "w") c3Fireball (s2c "C3") none
            (Rng.mk (fun _ => 3) 0) = some (s2, rng1.advance targets.length) ∧
          (∀ cid, cid ∉ targets →
            s2.creatures.lookup cid = c3State.creatures.lookup cid) ∧
          (∀ i (hi : i < targets.length) cr,
            c3State.creatures.lookup (targets.get ⟨i, hi⟩) = some cr →
            s2.creatures.lookup (targets.get ⟨i, hi⟩) =
              some { cr with current_hp := max 0 (cr.current_hp -
                (apply_damage_modifiers
                  (if (rng1.vals (rng1.idx + i) : Int) +
                      cr.ability_scores.get_modifier
                        (effective_save_ability c3Fireball) ≥
                      effective_save_dc c3Fireball
                   then D.fdiv 2 else D)
                  (DamageRoll.mk (s2c "8d6") (s2c "fire")).damage_type
                  cr).1) })) := by
  exact C3_aoe_radius_and_independent_saves c3State (s2c "w") c3Fireball
    (s2c "C3") none (Rng.mk (fun _ => 3) 0) 4
    (DamageRoll.mk (s2c "8d6") (s2c "fire")) (fun _ => 0) rfl rfl rfl
    (by decide) (by decide)
    (by
      intro cid cr h
      simp only [c3State, c3Wizard, c3Goblin, List.mem_cons,
        List.not_mem_nil, or_false, Prod.mk.injEq] at h
      rcases h with ⟨-, rfl⟩ | ⟨-, rfl⟩ | ⟨-, rfl⟩ | ⟨-, rfl⟩ <;> exact ⟨_, rfl⟩)
    (fun _ _ _ => rfl)

end RPG
